import Mathlib

/-!
Shallow embedding of the serverd web daemon (repository jflopezfernandez/serverd)
and proofs of the specification claims about it.

The embedding follows the source files:
  - src/serverd/src/main.c            (entry point, epoll event loop, request
                                       tokenization, response dispatch)
  - src/serverd/src/configuration.c   (command-line and configuration-file parsing)
  - src/serverd/src/error.c           (fatal_error: print diagnostic, exit(EXIT_FAILURE))
  - src/serverd/include/config.h      (EPOLL_MAX_EVENTS)

Machine-level side effects (sockets, epoll, the file system) are modelled as
explicit action traces and oracle functions; strings and byte buffers are
modelled as List Char.
-/

namespace Serverd

/-! ### Request-line tokenization

main.c lines 473-492 tokenize the received request with three successive
calls `strtok(request, " \r\n")` / `strtok(NULL, " \r\n")`.  `tokens` models
the sequence of tokens strtok yields for that delimiter set: the maximal
non-empty runs of non-delimiter characters, in order. -/

def isRequestDelim (c : Char) : Bool := c == ' ' || c == '\r' || c == '\n'

def tokensAux : List Char → List Char → List (List Char)
  | [], [] => []
  | [], acc => [acc.reverse]
  | c :: cs, acc =>
    if isRequestDelim c then
      match acc with
      | [] => tokensAux cs []
      | _ :: _ => acc.reverse :: tokensAux cs []
    else
      tokensAux cs (c :: acc)

def tokens (s : List Char) : List (List Char) := tokensAux s []

/-- The three strtok calls of main.c lines 473-492: request method, URI and
version are the first three whitespace/line-ending-delimited tokens; if any of
the three is NULL the parse has failed (the code calls fatal_error). -/
def parse_request (s : List Char) : Option (List Char × List Char × List Char) :=
  match tokens s with
  | m :: u :: v :: _ => some (m, u, v)
  | _ => none

/-! ### Fixed response data (main.c lines 494-501) -/

def http_response : List Char :=
  ("HTTP/1.1 200 OK\r\nConnection: Close\r\nContent-Type: text/html\r\n\r\n").toList

def status_line : List Char := ("HTTP/1.1 200 OK").toList

def index_html : List Char := ("index.html").toList

/-- stat(2) on the opened file: st_size is the byte length of its content. -/
def stat_size (content : List Char) : Nat := content.length

/-- sendfile(out_fd, in_fd, NULL, count): transfers up to count bytes from the
file, starting at the (NULL ⇒ current = 0) offset, bounded by end of file. -/
def sendfile_bytes (content : List Char) (count : Nat) : List Char :=
  content.take count

/-! ### Configuration record (include *configuration.h*, struct configuration_options_t)

document_root_directory is never given a default by
initialize_default_configuration (configuration.c lines 169-210); it is set
only when the configuration file contains a docroot line.  The uninitialized C
field is modelled as `none`. -/

structure configuration_options_t where
  configuration_filename : Option (List Char)
  hostname : List Char
  port : List Char
  document_root_directory : Option (List Char)
deriving DecidableEq

def default_configuration_filename : List Char := ("samples/conf/serverd.conf").toList
def default_hostname : List Char := ("localhost").toList
def default_port : List Char := ("8080").toList

/-- initialize_default_configuration (configuration.c lines 169-210). -/
def default_configuration : configuration_options_t :=
  { configuration_filename := some default_configuration_filename
    hostname := default_hostname
    port := default_port
    document_root_directory := none }

/-! ### Observable actions of the engine -/

inductive Action where
  | acceptConn (fd : Nat)
  | epollRegister (fd : Nat)
  | sendBytes (fd : Nat) (bytes : List Char)
  | fileTransfer (fd : Nat) (bytes : List Char)
  | closeFile
  | epollDeregister (fd : Nat)
  | closeDesc (fd : Nat)
deriving DecidableEq

/-- How a handled event leaves the process: keep looping, terminate via
fatal_error (exit(EXIT_FAILURE)), or return EXIT_FAILURE from main. -/
inductive StepExit where
  | keepRunning
  | fatalExit
  | returnFailure
deriving DecidableEq

structure ConnStepResult where
  actions : List Action
  exit : StepExit
  closed : Bool
deriving DecidableEq

/-- main.c lines 430-550: handling one epoll event on an established
connection.  `epollin` is the EPOLLIN bit of the event mask; `readResult` is
the outcome of read(2) (`none` models a return of -1, `some data` models a
return of data.length ≥ 0 with `data` the received bytes); `fs` maps a file
name to its content when open(2) succeeds on it.

The code: if EPOLLIN is not set, nothing happens.  A read error is
fatal_error.  The three strtok calls each call fatal_error when they return
NULL, all before any response byte is written.  On a full parse the fixed
header block is sent, then the file `document_root_directory ++ "index.html"`
is opened (open failure ⇒ return EXIT_FAILURE after the header was already
sent), fstat gives its size, sendfile transfers that many bytes, the file is
closed, and finally the connection is deregistered (EPOLL_CTL_DEL) and closed
in the same step. -/
def handle_established (fd : Nat) (epollin : Bool) (readResult : Option (List Char))
    (cfg : configuration_options_t) (fs : List Char → Option (List Char)) :
    ConnStepResult :=
  if epollin then
    match readResult with
    | none => { actions := [], exit := StepExit.fatalExit, closed := false }
    | some request =>
      match parse_request request with
      | none => { actions := [], exit := StepExit.fatalExit, closed := false }
      | some _ =>
        let filename := cfg.document_root_directory.getD [] ++ index_html
        match fs filename with
        | none =>
          { actions := [Action.sendBytes fd http_response]
            exit := StepExit.returnFailure
            closed := false }
        | some content =>
          { actions := [Action.sendBytes fd http_response,
                        Action.fileTransfer fd (sendfile_bytes content (stat_size content)),
                        Action.closeFile,
                        Action.epollDeregister fd,
                        Action.closeDesc fd]
            exit := StepExit.keepRunning
            closed := true }
  else { actions := [], exit := StepExit.keepRunning, closed := false }

/-- The bytes written to connection `fd` by a list of actions, in order
(send(2) and sendfile(2) both append to the connection's stream). -/
def connOutput (fd : Nat) : List Action → List Char
  | [] => []
  | Action.sendBytes f b :: rest => (if f = fd then b else []) ++ connOutput fd rest
  | Action.fileTransfer f b :: rest => (if f = fd then b else []) ++ connOutput fd rest
  | _ :: rest => connOutput fd rest

/-- The bytes transferred to connection `fd` by sendfile(2) actions only
(the response body). -/
def transferredBytes (fd : Nat) : List Action → List Char
  | [] => []
  | Action.fileTransfer f b :: rest => (if f = fd then b else []) ++ transferredBytes fd rest
  | _ :: rest => transferredBytes fd rest

/-! ### Configuration module (configuration.c)

Either branch of the configuration module that detects an error calls
fatal_error (error.c lines 39-74), which prints a diagnostic to stderr and
calls exit(EXIT_FAILURE); `-h`/`--version` print and exit(EXIT_SUCCESS). -/

inductive InitResult where
  | ok (cfg : configuration_options_t)
  | exitSuccess
  | fatal (msg : List Char)
deriving DecidableEq

/-- One command-line option occurrence, as classified by the
getopt_long(3) loop (configuration.c lines 239-336, option string "hvH:p:"
plus the long_options table).  `unknownOpt` is getopt's '?' result, which the
switch ignores (case '?': break). -/
inductive CmdOpt where
  | versionFlag
  | configFileOpt (v : List Char)
  | hostnameOpt (v : List Char)
  | helpFlag
  | portOpt (v : List Char)
  | unknownOpt
deriving DecidableEq

/-- The switch body of parse_command_line_configuration_options
(configuration.c lines 289-335). -/
def apply_cmd_opt (cfg : configuration_options_t) : CmdOpt → InitResult
  | CmdOpt.versionFlag => InitResult.exitSuccess
  | CmdOpt.configFileOpt v => InitResult.ok { cfg with configuration_filename := some v }
  | CmdOpt.hostnameOpt v => InitResult.ok { cfg with hostname := v }
  | CmdOpt.helpFlag => InitResult.exitSuccess
  | CmdOpt.portOpt v => InitResult.ok { cfg with port := v }
  | CmdOpt.unknownOpt => InitResult.ok cfg

/-- parse_command_line_configuration_options (configuration.c lines 224-337):
the getopt loop applied to the sequence of recognized option occurrences. -/
def parse_command_line_configuration_options (cfg : configuration_options_t) :
    List CmdOpt → InitResult
  | [] => InitResult.ok cfg
  | o :: os =>
    match apply_cmd_opt cfg o with
    | InitResult.ok cfg2 => parse_command_line_configuration_options cfg2 os
    | r => r

/-! configuration-file line parsing (configuration.c lines 427-547) -/

/-- The comment-removal state machine of configuration.c lines 444-476: once a
'#' has been seen, every later character of the line is replaced by a space
(the '#' itself is kept; strtok skips it as a delimiter). -/
def strip_comments : List Char → Bool → List Char
  | [], _ => []
  | c :: cs, inComment =>
    (if inComment then ' ' else c) :: strip_comments cs (inComment || c == '#')

/-- Delimiters of the option token: `strtok(line_buffer, " =#\r\n")`
(configuration.c line 502). -/
def isOptDelim (c : Char) : Bool :=
  c == ' ' || c == '=' || c == '#' || c == '\r' || c == '\n'

/-- Delimiters of the value token: `strtok(NULL, "\r\n")`
(configuration.c line 514). -/
def isLineDelim (c : Char) : Bool := c == '\r' || c == '\n'

/-- The two strtok calls on a (comment-stripped) configuration line:
`strtok(line, " =#\r\n")` yields the option token (none on a blank line);
strtok then resumes one character past the delimiter it overwrote, and
`strtok(NULL, "\r\n")` yields the value token (none when nothing is left). -/
def config_line_tokens (line : List Char) : Option (List Char × Option (List Char)) :=
  match line.dropWhile isOptDelim with
  | [] => none
  | c :: cs =>
    let opt := (c :: cs).takeWhile (fun x => !isOptDelim x)
    let rest := ((c :: cs).drop opt.length).drop 1
    match rest.dropWhile isLineDelim with
    | [] => some (opt, none)
    | d :: ds => some (opt, some ((d :: ds).takeWhile (fun x => !isLineDelim x)))

def hostname_key : List Char := ("hostname").toList
def port_key : List Char := ("port").toList
def docroot_key : List Char := ("docroot").toList

def msg_invalid_setting : List Char :=
  ("[Error] Invalid configuration setting for option: ").toList
def msg_unrecognized : List Char := ("[Error] Unrecognized option: ").toList
def msg_cannot_open : List Char := ("[Error] Could not open configuration file: ").toList

/-- The body of the getline loop (configuration.c lines 427-547) for one raw
line: strip comments, tokenize; a line with no option token is skipped; an
option token with no value token is fatal; hostname/port/docroot overwrite the
corresponding field unconditionally; any other option token is fatal. -/
def process_config_line (cfg : configuration_options_t) (raw : List Char) : InitResult :=
  match config_line_tokens (strip_comments raw false) with
  | none => InitResult.ok cfg
  | some (opt, none) => InitResult.fatal (msg_invalid_setting ++ opt)
  | some (opt, some v) =>
    if opt = hostname_key then InitResult.ok { cfg with hostname := v }
    else if opt = port_key then InitResult.ok { cfg with port := v }
    else if opt = docroot_key then
      InitResult.ok { cfg with document_root_directory := some v }
    else InitResult.fatal (msg_unrecognized ++ opt)

/-- The getline loop over all lines of the configuration file. -/
def parse_configuration_file_options_lines (cfg : configuration_options_t) :
    List (List Char) → InitResult
  | [] => InitResult.ok cfg
  | l :: ls =>
    match process_config_line cfg l with
    | InitResult.ok cfg2 => parse_configuration_file_options_lines cfg2 ls
    | r => r

/-- parse_configuration_file_options (configuration.c lines 352-560):
a NULL configuration_filename skips file parsing; a failed fopen is fatal;
otherwise every line is processed in order.  `rf` models fopen+getline: it
maps a file name to the list of its lines when the file can be opened. -/
def parse_configuration_file_options (cfg : configuration_options_t)
    (rf : List Char → Option (List (List Char))) : InitResult :=
  match cfg.configuration_filename with
  | none => InitResult.ok cfg
  | some fname =>
    match rf fname with
    | none => InitResult.fatal (msg_cannot_open ++ fname)
    | some ls => parse_configuration_file_options_lines cfg ls

/-- initialize_server_configuration (configuration.c lines 568-606):
defaults, then the command line, then the configuration file — in that
order. -/
def initialize_server_configuration (args : List CmdOpt)
    (rf : List Char → Option (List (List Char))) : InitResult :=
  match parse_command_line_configuration_options default_configuration args with
  | InitResult.ok cfg => parse_configuration_file_options cfg rf
  | r => r

/-- The port field of a configuration result, when one was produced. -/
def result_port (r : InitResult) : Option (List Char) :=
  match r with
  | InitResult.ok cfg => some cfg.port
  | _ => none

/-! ### The event loop engine (main.c lines 373-553) -/

/-- EPOLL_MAX_EVENTS (include *config.h* lines 61-63). -/
def EPOLL_MAX_EVENTS : Nat := 10

/-- State of the event loop: the listening descriptor, the set of descriptors
registered in the epoll instance, and the set of live accepted connections
(the connection table of the specification; in main.c it coincides with the
registered non-listener descriptors). -/
structure EngineState where
  listener : Nat
  registered : List Nat
  connections : List Nat
deriving DecidableEq

/-- One ready (descriptor, mask) pair returned by epoll_wait; the engine only
inspects the EPOLLIN bit of the mask (main.c line 431). -/
structure EpollEvent where
  fd : Nat
  epollin : Bool
deriving DecidableEq

/-- Environment oracle for handling one event: the result of accept(2) on the
listener (`none` models -1), whether getnameinfo succeeds, and the result of
read(2) on an established connection (`none` models -1). -/
structure EventEnv where
  newConn : Option Nat
  nameinfoOk : Bool
  readResult : Option (List Char)
deriving DecidableEq

/-- The body of the per-event dispatch (main.c lines 398-552).  A listener
event accepts: accept failure is fatal_error; on success the new descriptor is
registered with EPOLL_CTL_ADD (and a failing getnameinfo afterwards is
fatal_error).  Any other descriptor is an established connection, handled by
handle_established; when that handler closed the connection (EPOLL_CTL_DEL
followed by close in the same step) the descriptor leaves both the registered
set and the connection table. -/
def engine_step (cfg : configuration_options_t) (fs : List Char → Option (List Char))
    (s : EngineState) (ev : EpollEvent) (env : EventEnv) :
    EngineState × List Action × StepExit :=
  if ev.fd = s.listener then
    match env.newConn with
    | none => (s, [], StepExit.fatalExit)
    | some nfd =>
      let s2 : EngineState :=
        { s with registered := nfd :: s.registered, connections := nfd :: s.connections }
      let acts := [Action.acceptConn nfd, Action.epollRegister nfd]
      if env.nameinfoOk then (s2, acts, StepExit.keepRunning)
      else (s2, acts, StepExit.fatalExit)
  else
    let r := handle_established ev.fd ev.epollin env.readResult cfg fs
    let s2 : EngineState :=
      if r.closed then
        { s with registered := s.registered.filter (fun x => x != ev.fd),
                 connections := s.connections.filter (fun x => x != ev.fd) }
      else s
    (s2, r.actions, r.exit)

/-- epoll_wait(epfd, events, EPOLL_MAX_EVENTS, -1) (main.c line 392): the
kernel reports the ready events, at most EPOLL_MAX_EVENTS of them, in the
order of its ready list (modelled by the oracle list `ready`, which pairs
each event with its handling environment). -/
def epoll_wait_model (ready : List (EpollEvent × EventEnv)) :
    List (EpollEvent × EventEnv) :=
  ready.take EPOLL_MAX_EVENTS

/-- The for loop over one batch (main.c lines 398-552): events are handled in
index order; fatal_error or a return statement inside the loop terminates the
process, leaving the remaining events of the batch unhandled.  The result
records the final state, the per-event traces (event descriptor paired with
the actions its handling produced) in handling order, and how the batch
ended. -/
def process_batch (cfg : configuration_options_t) (fs : List Char → Option (List Char))
    (s : EngineState) :
    List (EpollEvent × EventEnv) → EngineState × List (Nat × List Action) × StepExit
  | [] => (s, [], StepExit.keepRunning)
  | (ev, env) :: rest =>
    match engine_step cfg fs s ev env with
    | (s2, acts, StepExit.keepRunning) =>
      match process_batch cfg fs s2 rest with
      | (s3, traces, ex2) => (s3, (ev.fd, acts) :: traces, ex2)
    | (s2, acts, StepExit.fatalExit) => (s2, [(ev.fd, acts)], StepExit.fatalExit)
    | (s2, acts, StepExit.returnFailure) => (s2, [(ev.fd, acts)], StepExit.returnFailure)

/-! ### Process startup (main.c lines 287-392, the code after the return) -/

inductive SetupAction where
  | bindSocket
  | listenSocket
  | epollCreate
  | epollAddListener
  | eventLoop
deriving DecidableEq

/-- The startup sequence of main.c lines 287-392: initialize_server_configuration
first; only when it produces a configuration does the process go on to create,
bind and listen on the socket (initialize_listener_socket, line 371), create
the epoll instance, register the listener and enter the event loop.  A fatal
configuration error exits with EXIT_FAILURE (= 1) before any of that; help and
version exit with EXIT_SUCCESS (= 0).  The result pairs the setup actions
performed with the exit code when the process exited during startup. -/
def server_start (args : List CmdOpt) (rf : List Char → Option (List (List Char))) :
    List SetupAction × Option Nat :=
  match initialize_server_configuration args rf with
  | InitResult.fatal _ => ([], some 1)
  | InitResult.exitSuccess => ([], some 0)
  | InitResult.ok _ =>
    ([SetupAction.bindSocket, SetupAction.listenSocket, SetupAction.epollCreate,
      SetupAction.epollAddListener, SetupAction.eventLoop], none)

/-! ### The entry point as committed (main.c lines 263-278)

main checks `argc == 1` (no arguments): it prints "No input(s).\n" and returns
EXIT_FAILURE.  Otherwise it prints and URI-parses every argument and hits the
unconditional `return EXIT_SUCCESS;` at line 277.  Everything from line 287 to
line 553 — configuration loading, daemonization, listener creation, the whole
epoll event loop — sits after that return and is never executed. -/

inductive MainAction where
  | printErrNoInputs
  | printUriArg (arg : List Char)
  | setup (a : SetupAction)
deriving DecidableEq

def isSetupAction : MainAction → Bool
  | MainAction.setup _ => true
  | _ => false

/-- main (main.c lines 263-278): exit code paired with the trace of actions
the process performs.  `argv` is the argument list after the program name, so
`argv = []` is the `argc == 1` case. -/
def main_c (argv : List (List Char)) : Nat × List MainAction :=
  if argv = [] then (1, [MainAction.printErrNoInputs])
  else (0, argv.map (fun a => MainAction.printUriArg a))

/-! ### Concrete data used by the witnesses -/

def reqW : List Char := ("GET / HTTP/1.1\r\n").toList
def reqShortW : List Char := ("GET /\n").toList
def docW : List Char := ("/srv/http/").toList
def contentW : List Char := ("<html><p>hello</p></html>").toList

def cfgW : configuration_options_t :=
  { configuration_filename := some default_configuration_filename
    hostname := default_hostname
    port := default_port
    document_root_directory := some docW }

def fsW : List Char → Option (List Char) :=
  fun f => if f = docW ++ index_html then some contentW else none

def reqW2 : List Char := ("POST /other HTTP/1.0\r\n").toList

def sW : EngineState := ⟨3, [7, 3], [7]⟩
def evW : EpollEvent := ⟨7, true⟩
def envW : EventEnv := ⟨none, true, some reqW⟩

/-- A configuration-file line on which the parser must call fatal_error:
its option token exists and either no value token follows it, or the option
token is none of hostname, port, docroot. -/
def bad_config_line (l : List Char) : Bool :=
  match config_line_tokens (strip_comments l false) with
  | none => false
  | some (_, none) => true
  | some (opt, some _) =>
    !(opt == hostname_key) && !(opt == port_key) && !(opt == docroot_key)

def fooLine : List Char := ("foo=bar\n").toList

def rf8 : List Char → Option (List (List Char)) :=
  fun f => if f = default_configuration_filename then some [fooLine] else none

def host_line (v : List Char) : List Char := hostname_key ++ '=' :: (v ++ ['\n'])
def port_line (v : List Char) : List Char := port_key ++ '=' :: (v ++ ['\n'])

def hostFileW : List Char := ("files.example").toList
def portFileW : List Char := ("8081").toList

def rf4 : List Char → Option (List (List Char)) :=
  fun f => if f = default_configuration_filename
           then some [host_line hostFileW, port_line portFileW] else none

/-! ### Helper lemmas -/

theorem parse_request_some_of_three (r : List Char) (h : 3 ≤ (tokens r).length) :
    ∃ m u v, parse_request r = some (m, u, v) := by
  unfold parse_request
  cases htk : tokens r with
  | nil => rw [htk] at h; simp at h
  | cons a t =>
    cases t with
    | nil => rw [htk] at h; simp at h
    | cons b t2 =>
      cases t2 with
      | nil => rw [htk] at h; simp at h
      | cons c t3 => exact ⟨a, b, c, rfl⟩

theorem parse_request_none_of_lt_three (r : List Char) (h : (tokens r).length < 3) :
    parse_request r = none := by
  unfold parse_request
  cases htk : tokens r with
  | nil => rfl
  | cons a t =>
    cases t with
    | nil => rfl
    | cons b t2 =>
      cases t2 with
      | nil => rfl
      | cons c t3 => rw [htk] at h; simp at h; omega

theorem take_append_left {α : Type} (l1 l2 : List α) (n : Nat) (h : n ≤ l1.length) :
    (l1 ++ l2).take n = l1.take n := by
  induction l1 generalizing n with
  | nil =>
    simp at h
    subst h
    simp
  | cons a t ih =>
    cases n with
    | zero => simp
    | succ k =>
      simp only [List.cons_append, List.take_succ_cons]
      rw [ih k (Nat.le_of_succ_le_succ h)]

/-! ### Claim theorems -/

/-- Claim C5: main (main.c lines 263-278) returns before any server setup.
With no arguments it prints a diagnostic and returns EXIT_FAILURE (1); with
one or more arguments it prints and URI-parses each argument and returns
EXIT_SUCCESS (0) at the unconditional return statement, so its action trace
never contains a setup action (configuration loading, bind/listen, epoll
creation, event loop). -/
theorem claim5_main_returns_before_server_setup (argv : List (List Char)) :
    ((main_c argv).2.all (fun a => !isSetupAction a)) = true
    ∧ (main_c argv).1 = (if argv = [] then 1 else 0) := by
  unfold main_c
  by_cases h : argv = [] <;>
    simp [h, isSetupAction, List.all_eq_true]

/-- Claim C3 (code bug): on a readiness event for an established connection
whose read(2) returns -1 (modelled by readResult = none), the engine at main.c
lines 437-442 calls fatal_error and the process terminates: the step performs
no deregistration and no close of the connection, and likewise a zero-byte
read (a client that disconnected without sending data) leaves an all-zero
buffer whose tokenization fails, again reaching fatal_error.  The claim (and
spec sections 4.3 and 8, scenario C) say the engine should deregister and
close just that connection and keep running. -/
theorem claim3_read_failure_terminates_process :
    engine_step cfgW fsW ⟨3, [7, 3], [7]⟩ ⟨7, true⟩ ⟨none, true, none⟩
      = (⟨3, [7, 3], [7]⟩, [], StepExit.fatalExit)
    ∧ engine_step cfgW fsW ⟨3, [7, 3], [7]⟩ ⟨7, true⟩ ⟨none, true, some []⟩
      = (⟨3, [7, 3], [7]⟩, [], StepExit.fatalExit) := by
  constructor <;> rfl

/-- Claim C4 counterexample: port is given as 9090 on the command line and as
8081 in the configuration file; the record returned by
initialize_server_configuration holds 8081, the file's value, not the
command-line value — the file parser (configuration.c lines 536-541) runs
second and overwrites unconditionally. -/
theorem claim4_counterexample_file_overrides_cmdline :
    result_port (initialize_server_configuration [CmdOpt.portOpt (("9090").toList)]
        (fun f => if f = default_configuration_filename
                  then some [(("port=8081\n")).toList] else none))
      = some (("8081").toList)
    ∧ (("8081").toList : List Char) ≠ (("9090").toList) := by
  constructor
  · decide
  · decide

/-- Claim C2: for every input whose tokenization yields fewer than three
whitespace/line-ending-delimited tokens, the handler (main.c lines 473-492)
reaches fatal_error at one of the three strtok NULL checks before any response
byte is written: the step performs no action at all, in particular it sends no
bytes on the connection. -/
theorem claim2_short_request_no_response (fd : Nat) (request : List Char)
    (cfg : configuration_options_t) (fs : List Char → Option (List Char))
    (h : (tokens request).length < 3) :
    handle_established fd true (some request) cfg fs
      = ⟨[], StepExit.fatalExit, false⟩
    ∧ connOutput fd (handle_established fd true (some request) cfg fs).actions = [] := by
  have hp : parse_request request = none := parse_request_none_of_lt_three request h
  constructor
  · simp [handle_established, hp]
  · simp [handle_established, hp, connOutput]

/-- Claim C1: for every input that tokenizes into at least three
whitespace/line-ending-delimited tokens, the handler (main.c lines 473-549)
sends on the connection exactly the fixed header block followed by the
configured file's byte content — the sent stream begins with the status line
"HTTP/1.1 200 OK" — and then deregisters (EPOLL_CTL_DEL) and closes the
connection descriptor, in that order, at the end of the same step. -/
theorem claim1_valid_request_full_response
    (fd : Nat) (request d content : List Char) (cfg : configuration_options_t)
    (fs : List Char → Option (List Char))
    (hdoc : cfg.document_root_directory = some d)
    (hfile : fs (d ++ index_html) = some content)
    (htok : 3 ≤ (tokens request).length) :
    handle_established fd true (some request) cfg fs
      = ⟨[Action.sendBytes fd http_response, Action.fileTransfer fd content,
          Action.closeFile, Action.epollDeregister fd, Action.closeDesc fd],
         StepExit.keepRunning, true⟩
    ∧ connOutput fd (handle_established fd true (some request) cfg fs).actions
        = http_response ++ content
    ∧ (connOutput fd (handle_established fd true (some request) cfg fs).actions).take
        status_line.length = status_line := by
  obtain ⟨m, u, v, hp⟩ := parse_request_some_of_three request htok
  have h1 : handle_established fd true (some request) cfg fs
      = ⟨[Action.sendBytes fd http_response, Action.fileTransfer fd content,
          Action.closeFile, Action.epollDeregister fd, Action.closeDesc fd],
         StepExit.keepRunning, true⟩ := by
    simp [handle_established, hp, hdoc, hfile, sendfile_bytes, stat_size, List.take_length]
  have hco : connOutput fd (handle_established fd true (some request) cfg fs).actions
      = http_response ++ content := by
    rw [h1]; simp [connOutput]
  refine ⟨h1, hco, ?_⟩
  rw [hco, take_append_left http_response content status_line.length (by decide)]
  decide

theorem claim1_witness :
    cfgW.document_root_directory = some docW
    ∧ fsW (docW ++ index_html) = some contentW
    ∧ 3 ≤ (tokens reqW).length
    ∧ (handle_established 4 true (some reqW) cfgW fsW
        = ⟨[Action.sendBytes 4 http_response, Action.fileTransfer 4 contentW,
            Action.closeFile, Action.epollDeregister 4, Action.closeDesc 4],
           StepExit.keepRunning, true⟩
      ∧ connOutput 4 (handle_established 4 true (some reqW) cfgW fsW).actions
          = http_response ++ contentW
      ∧ (connOutput 4 (handle_established 4 true (some reqW) cfgW fsW).actions).take
          status_line.length = status_line) :=
  ⟨rfl, by decide, by decide,
   claim1_valid_request_full_response 4 reqW docW contentW cfgW fsW rfl (by decide) (by decide)⟩

/-- Claim C6: for every successful request (at least three tokens, configured
file opens), the number of bytes the dispatcher transfers as the response body
— the sendfile(2) transfer of main.c line 525, bounded by the file's end —
equals the file's size as reported by fstat (main.c lines 518-525). -/
theorem claim6_transfer_size_roundtrip
    (fd : Nat) (request d content : List Char) (cfg : configuration_options_t)
    (fs : List Char → Option (List Char))
    (hdoc : cfg.document_root_directory = some d)
    (hfile : fs (d ++ index_html) = some content)
    (htok : 3 ≤ (tokens request).length) :
    (transferredBytes fd (handle_established fd true (some request) cfg fs).actions).length
      = stat_size content := by
  obtain ⟨m, u, v, hp⟩ := parse_request_some_of_three request htok
  simp [handle_established, hp, hdoc, hfile, transferredBytes, sendfile_bytes, stat_size,
    List.take_length]

theorem claim6_witness :
    cfgW.document_root_directory = some docW
    ∧ fsW (docW ++ index_html) = some contentW
    ∧ 3 ≤ (tokens reqW).length
    ∧ (transferredBytes 6 (handle_established 6 true (some reqW) cfgW fsW).actions).length
        = stat_size contentW :=
  ⟨rfl, by decide, by decide,
   claim6_transfer_size_roundtrip 6 reqW docW contentW cfgW fsW rfl (by decide) (by decide)⟩

/-- Claim C7: the bytes a connection receives are a function of the
configuration and the file system only, never of the parsed request: any two
inputs that both tokenize into at least three tokens — different methods,
URIs, or the same request on two different connections — produce byte-identical
connection output (main.c lines 494-532 use no part of the parsed tokens). -/
theorem claim7_response_independent_of_request (fd1 fd2 : Nat) (r1 r2 : List Char)
    (cfg : configuration_options_t) (fs : List Char → Option (List Char))
    (h1 : 3 ≤ (tokens r1).length) (h2 : 3 ≤ (tokens r2).length) :
    connOutput fd1 (handle_established fd1 true (some r1) cfg fs).actions
      = connOutput fd2 (handle_established fd2 true (some r2) cfg fs).actions := by
  obtain ⟨m1, u1, v1, hp1⟩ := parse_request_some_of_three r1 h1
  obtain ⟨m2, u2, v2, hp2⟩ := parse_request_some_of_three r2 h2
  cases hfs : fs (cfg.document_root_directory.getD [] ++ index_html) <;>
    simp [handle_established, hp1, hp2, hfs, connOutput]

theorem claim7_witness :
    3 ≤ (tokens reqW).length
    ∧ 3 ≤ (tokens reqW2).length
    ∧ connOutput 8 (handle_established 8 true (some reqW) cfgW fsW).actions
      = connOutput 9 (handle_established 9 true (some reqW2) cfgW fsW).actions :=
  ⟨by decide, by decide,
   claim7_response_independent_of_request 8 9 reqW reqW2 cfgW fsW (by decide) (by decide)⟩

theorem claim2_witness :
    (tokens reqShortW).length < 3
    ∧ (handle_established 5 true (some reqShortW) cfgW fsW
        = ⟨[], StepExit.fatalExit, false⟩
      ∧ connOutput 5 (handle_established 5 true (some reqShortW) cfgW fsW).actions = []) :=
  ⟨by decide, claim2_short_request_no_response 5 reqShortW cfgW fsW (by decide)⟩

theorem process_bad_line_fatal (cfg : configuration_options_t) (l : List Char)
    (h : bad_config_line l = true) :
    ∃ m, process_config_line cfg l = InitResult.fatal m := by
  unfold bad_config_line at h
  unfold process_config_line
  cases hts : config_line_tokens (strip_comments l false) with
  | none => rw [hts] at h; simp at h
  | some p =>
    obtain ⟨opt, val⟩ := p
    cases val with
    | none => exact ⟨_, rfl⟩
    | some v =>
      rw [hts] at h
      simp only [Bool.and_eq_true, Bool.not_eq_true', beq_eq_false_iff_ne, ne_eq] at h
      obtain ⟨⟨hne1, hne2⟩, hne3⟩ := h
      refine ⟨msg_unrecognized ++ opt, ?_⟩
      simp only [if_neg hne1, if_neg hne2, if_neg hne3]

theorem parse_lines_append_fatal (pre : List (List Char)) :
    ∀ (cfg cfg2 : configuration_options_t) (bad : List Char)
      (post : List (List Char)) (m : List Char),
    parse_configuration_file_options_lines cfg pre = InitResult.ok cfg2 →
    process_config_line cfg2 bad = InitResult.fatal m →
    parse_configuration_file_options_lines cfg (pre ++ bad :: post)
      = InitResult.fatal m := by
  induction pre with
  | nil =>
    intro cfg cfg2 bad post m h1 h2
    simp only [parse_configuration_file_options_lines] at h1
    cases h1
    simp only [List.nil_append, parse_configuration_file_options_lines, h2]
  | cons l ls ih =>
    intro cfg cfg2 bad post m h1 h2
    simp only [parse_configuration_file_options_lines] at h1 ⊢
    cases hl : process_config_line cfg l with
    | ok cfgNext =>
      rw [hl] at h1
      exact ih cfgNext cfg2 bad post m h1 h2
    | exitSuccess => rw [hl] at h1; simp at h1
    | fatal mm => rw [hl] at h1; simp at h1

/-- Claim C8: when the configuration file's lines are good up to some line
that is bad — an option token that is none of hostname/port/docroot, or an
option token with no value token — the configuration parser
(configuration.c lines 512-545) reaches fatal_error, so the startup sequence
exits with status EXIT_FAILURE = 1 (nonzero) having performed no setup action
at all: in particular no socket was created, bound or listened on. -/
theorem claim8_bad_config_line_fatal_before_bind
    (args : List CmdOpt) (rf : List Char → Option (List (List Char)))
    (cfg0 cfg1 : configuration_options_t) (fname bad : List Char)
    (pre post : List (List Char))
    (hcmd : parse_command_line_configuration_options default_configuration args
      = InitResult.ok cfg0)
    (hfname : cfg0.configuration_filename = some fname)
    (hrf : rf fname = some (pre ++ bad :: post))
    (hpre : parse_configuration_file_options_lines cfg0 pre = InitResult.ok cfg1)
    (hbad : bad_config_line bad = true) :
    (server_start args rf).1 = [] ∧ (server_start args rf).2 = some 1 := by
  obtain ⟨m, hm⟩ := process_bad_line_fatal cfg1 bad hbad
  have hfold := parse_lines_append_fatal pre cfg0 cfg1 bad post m hpre hm
  have hfile : parse_configuration_file_options cfg0 rf = InitResult.fatal m := by
    simp only [parse_configuration_file_options, hfname, hrf, hfold]
  have hinit : initialize_server_configuration args rf = InitResult.fatal m := by
    simp only [initialize_server_configuration, hcmd, hfile]
  simp only [server_start, hinit]
  exact ⟨trivial, trivial⟩

theorem claim8_witness :
    parse_command_line_configuration_options default_configuration []
      = InitResult.ok default_configuration
    ∧ default_configuration.configuration_filename = some default_configuration_filename
    ∧ rf8 default_configuration_filename = some ([] ++ fooLine :: [])
    ∧ parse_configuration_file_options_lines default_configuration []
      = InitResult.ok default_configuration
    ∧ bad_config_line fooLine = true
    ∧ ((server_start [] rf8).1 = [] ∧ (server_start [] rf8).2 = some 1) :=
  ⟨rfl, rfl, by decide, rfl, by decide,
   claim8_bad_config_line_fatal_before_bind [] rf8 default_configuration
     default_configuration default_configuration_filename fooLine [] []
     rfl rfl (by decide) rfl (by decide)⟩

/-- The four possible outcomes of handling one event on an established
connection: ignored event or failed read/parse (nothing done), header sent but
file open failed (return EXIT_FAILURE), or full response followed by
deregister-and-close. -/
theorem handle_established_cases (fd : Nat) (epollin : Bool) (rr : Option (List Char))
    (cfg : configuration_options_t) (fs : List Char → Option (List Char)) :
    handle_established fd epollin rr cfg fs = ⟨[], StepExit.keepRunning, false⟩
    ∨ handle_established fd epollin rr cfg fs = ⟨[], StepExit.fatalExit, false⟩
    ∨ handle_established fd epollin rr cfg fs
        = ⟨[Action.sendBytes fd http_response], StepExit.returnFailure, false⟩
    ∨ ∃ content, handle_established fd epollin rr cfg fs
        = ⟨[Action.sendBytes fd http_response,
            Action.fileTransfer fd (sendfile_bytes content (stat_size content)),
            Action.closeFile, Action.epollDeregister fd, Action.closeDesc fd],
           StepExit.keepRunning, true⟩ := by
  by_cases he : epollin
  · cases rr with
    | none => right; left; simp [handle_established, he]
    | some request =>
      cases hp : parse_request request with
      | none => right; left; simp [handle_established, he, hp]
      | some t =>
        cases hfs : fs (cfg.document_root_directory.getD [] ++ index_html) with
        | none => right; right; left; simp [handle_established, he, hp, hfs]
        | some content =>
          right; right; right
          exact ⟨content, by simp [handle_established, he, hp, hfs]⟩
  · left; simp [handle_established, he]

/-- Claim C9: the engine invariant.  If a descriptor is registered in the
epoll instance exactly when it is the listening socket or a live accepted
connection, then one engine step (main.c lines 398-552) preserves that
invariant; moreover, within any single step, every close of a connection
descriptor is paired with its deregistration (EPOLL_CTL_DEL, main.c lines
547-549) in that same step, and a closed descriptor is gone from the
registered set and the connection table afterwards, so it cannot be read,
written, or closed again without being re-accepted. -/
theorem claim9_registration_invariant (cfg : configuration_options_t)
    (fs : List Char → Option (List Char)) (s : EngineState) (ev : EpollEvent)
    (env : EventEnv)
    (hinv : ∀ fd, fd ∈ s.registered ↔ fd = s.listener ∨ fd ∈ s.connections) :
    (∀ fd, fd ∈ (engine_step cfg fs s ev env).1.registered ↔
        fd = (engine_step cfg fs s ev env).1.listener
        ∨ fd ∈ (engine_step cfg fs s ev env).1.connections)
    ∧ (∀ fd, Action.closeDesc fd ∈ (engine_step cfg fs s ev env).2.1 →
        Action.epollDeregister fd ∈ (engine_step cfg fs s ev env).2.1)
    ∧ (∀ fd, Action.closeDesc fd ∈ (engine_step cfg fs s ev env).2.1 →
        fd ∉ (engine_step cfg fs s ev env).1.registered
        ∧ fd ∉ (engine_step cfg fs s ev env).1.connections) := by
  by_cases hL : ev.fd = s.listener
  · cases hnc : env.newConn with
    | none =>
      refine ⟨?_, ?_, ?_⟩ <;> simp [engine_step, hL, hnc]
      exact hinv
    | some nfd =>
      by_cases hni : env.nameinfoOk
      all_goals refine ⟨?_, ?_, ?_⟩ <;> simp [engine_step, hL, hnc, hni]
      all_goals intro fd
      all_goals rw [hinv fd]
      all_goals tauto
  · rcases handle_established_cases ev.fd ev.epollin env.readResult cfg fs with
      h | h | h | ⟨content, h⟩
    · refine ⟨?_, ?_, ?_⟩ <;> simp [engine_step, hL, h]
      exact hinv
    · refine ⟨?_, ?_, ?_⟩ <;> simp [engine_step, hL, h]
      exact hinv
    · refine ⟨?_, ?_, ?_⟩ <;> simp [engine_step, hL, h]
      exact hinv
    · refine ⟨?_, ?_, ?_⟩ <;> simp [engine_step, hL, h]
      intro fd
      constructor
      · rintro ⟨hr, hne⟩
        rcases (hinv fd).1 hr with hfd | hc
        · exact Or.inl hfd
        · exact Or.inr ⟨hc, hne⟩
      · rintro (hfd | ⟨hc, hne⟩)
        · refine ⟨(hinv fd).2 (Or.inl hfd), ?_⟩
          intro he
          exact hL (by rw [← he, hfd])
        · exact ⟨(hinv fd).2 (Or.inr hc), hne⟩

theorem claim9_witness :
    (∀ fd, fd ∈ sW.registered ↔ fd = sW.listener ∨ fd ∈ sW.connections)
    ∧ ((∀ fd, fd ∈ (engine_step cfgW fsW sW evW envW).1.registered ↔
          fd = (engine_step cfgW fsW sW evW envW).1.listener
          ∨ fd ∈ (engine_step cfgW fsW sW evW envW).1.connections)
      ∧ (∀ fd, Action.closeDesc fd ∈ (engine_step cfgW fsW sW evW envW).2.1 →
          Action.epollDeregister fd ∈ (engine_step cfgW fsW sW evW envW).2.1)
      ∧ (∀ fd, Action.closeDesc fd ∈ (engine_step cfgW fsW sW evW envW).2.1 →
          fd ∉ (engine_step cfgW fsW sW evW envW).1.registered
          ∧ fd ∉ (engine_step cfgW fsW sW evW envW).1.connections)) :=
  ⟨by intro fd; simp [sW]; tauto,
   claim9_registration_invariant cfgW fsW sW evW envW
     (by intro fd; simp [sW]; tauto)⟩

/-- The per-event traces a batch produces list the ready events' descriptors
in exactly the order the multiplexer returned them (possibly cut short when a
step terminated the process): handling order is batch order. -/
theorem process_batch_handled_in_order (cfg : configuration_options_t)
    (fs : List Char → Option (List Char)) :
    ∀ (evs : List (EpollEvent × EventEnv)) (s : EngineState),
    ∃ n, ((process_batch cfg fs s evs).2.1).map Prod.fst
      = (evs.map (fun p => p.1.fd)).take n := by
  intro evs
  induction evs with
  | nil => intro s; exact ⟨0, rfl⟩
  | cons p rest ih =>
    intro s
    obtain ⟨ev, env⟩ := p
    rcases hstep : engine_step cfg fs s ev env with ⟨s2, acts, ex⟩
    cases ex with
    | keepRunning =>
      obtain ⟨n, hn⟩ := ih s2
      refine ⟨n + 1, ?_⟩
      rcases hpb : process_batch cfg fs s2 rest with ⟨s3, traces, ex2⟩
      rw [hpb] at hn
      simp only [process_batch, hstep, hpb, List.map_cons, List.take_succ_cons]
      simp only at hn
      rw [hn]
    | fatalExit =>
      refine ⟨1, ?_⟩
      simp [process_batch, hstep]
    | returnFailure =>
      refine ⟨1, ?_⟩
      simp [process_batch, hstep]

/-- Claim C10: every multiplexer wait returns at most EPOLL_MAX_EVENTS = 10
ready (descriptor, mask) pairs (main.c line 392, include *config.h* lines
61-63), and the for loop of main.c lines 398-552 handles the events of one
batch in the order the multiplexer returned them: the sequence of handled
descriptors is an order-preserving prefix of the batch. -/
theorem claim10_batch_bound_and_order (cfg : configuration_options_t)
    (fs : List Char → Option (List Char)) (s : EngineState)
    (ready : List (EpollEvent × EventEnv)) :
    EPOLL_MAX_EVENTS = 10
    ∧ (epoll_wait_model ready).length ≤ EPOLL_MAX_EVENTS
    ∧ ∃ n, ((process_batch cfg fs s (epoll_wait_model ready)).2.1).map Prod.fst
        = ((epoll_wait_model ready).map (fun p => p.1.fd)).take n := by
  refine ⟨rfl, ?_, process_batch_handled_in_order cfg fs (epoll_wait_model ready) s⟩
  unfold epoll_wait_model
  simp [List.length_take]

/-! ### Claim C4: precedence between command line and configuration file -/

theorem takeWhile_all_append (p : Char → Bool) (l1 : List Char) (c : Char)
    (l2 : List Char) (h1 : ∀ x ∈ l1, p x = true) (hc : p c = false) :
    (l1 ++ c :: l2).takeWhile p = l1 := by
  induction l1 with
  | nil => simp [List.takeWhile_cons, hc]
  | cons a t ih =>
    have ha : p a = true := h1 a (List.mem_cons_self a t)
    simp only [List.cons_append, List.takeWhile_cons, ha, if_true]
    rw [ih (fun x hx => h1 x (List.mem_cons_of_mem a hx))]

theorem strip_comments_id (l : List Char) (h : ∀ c ∈ l, (c == '#') = false) :
    strip_comments l false = l := by
  induction l with
  | nil => rfl
  | cons c cs ih =>
    have hc := h c (List.mem_cons_self c cs)
    simp only [strip_comments, if_neg Bool.false_ne_true, Bool.false_or, hc]
    rw [ih (fun x hx => h x (List.mem_cons_of_mem c hx))]

theorem isLineDelim_false_of_isOptDelim_false (c : Char) (h : isOptDelim c = false) :
    isLineDelim c = false := by
  simp only [isOptDelim, Bool.or_eq_false_iff] at h
  obtain ⟨⟨⟨⟨h1, h2⟩, h3⟩, h4⟩, h5⟩ := h
  simp [isLineDelim, h4, h5]

theorem no_hash_of_isOptDelim_false (c : Char) (h : isOptDelim c = false) :
    (c == '#') = false := by
  simp only [isOptDelim, Bool.or_eq_false_iff] at h
  exact h.1.1.2

/-- A configuration-file line of the exact shape `key=value\n`, with a
delimiter-free key and value, tokenizes into that key and that value. -/
theorem config_line_tokens_keyval (key v : List Char)
    (hknil : key ≠ []) (hkey : ∀ x ∈ key, isOptDelim x = false)
    (hvnil : v ≠ []) (hv : ∀ x ∈ v, isOptDelim x = false) :
    config_line_tokens (key ++ '=' :: (v ++ ['\n'])) = some (key, some v) := by
  obtain ⟨k0, kt, rfl⟩ : ∃ a t, key = a :: t := by
    cases key with
    | nil => exact absurd rfl hknil
    | cons a t => exact ⟨a, t, rfl⟩
  obtain ⟨d0, dt, rfl⟩ : ∃ a t, v = a :: t := by
    cases v with
    | nil => exact absurd rfl hvnil
    | cons a t => exact ⟨a, t, rfl⟩
  have hk0 : isOptDelim k0 = false := hkey k0 (List.mem_cons_self _ _)
  have hd0 : isOptDelim d0 = false := hv d0 (List.mem_cons_self _ _)
  have hdrop1 : ((k0 :: kt) ++ '=' :: ((d0 :: dt) ++ ['\n'])).dropWhile isOptDelim
      = (k0 :: kt) ++ '=' :: ((d0 :: dt) ++ ['\n']) := by
    simp only [List.cons_append, List.dropWhile_cons, hk0]
    simp
  have htake1 : ((k0 :: kt) ++ '=' :: ((d0 :: dt) ++ ['\n'])).takeWhile
      (fun x => !isOptDelim x) = k0 :: kt := by
    refine takeWhile_all_append _ _ _ _ ?_ ?_
    · intro x hx
      simp [hkey x hx]
    · simp [isOptDelim]
  have hdroplen : (((k0 :: kt) ++ '=' :: ((d0 :: dt) ++ ['\n'])).drop
      (k0 :: kt).length).drop 1 = (d0 :: dt) ++ ['\n'] := by
    rw [List.drop_left (k0 :: kt) ('=' :: ((d0 :: dt) ++ ['\n']))]
    rfl
  have hdrop2 : ((d0 :: dt) ++ ['\n']).dropWhile isLineDelim
      = (d0 :: dt) ++ ['\n'] := by
    simp only [List.cons_append, List.dropWhile_cons,
      isLineDelim_false_of_isOptDelim_false d0 hd0]
    simp
  have htake2 : ((d0 :: dt) ++ ['\n']).takeWhile (fun x => !isLineDelim x)
      = d0 :: dt := by
    refine takeWhile_all_append _ _ _ _ ?_ ?_
    · intro x hx
      simp [isLineDelim_false_of_isOptDelim_false x (hv x hx)]
    · simp [isLineDelim]
  have hdrop1c := hdrop1
  have htake1c := htake1
  have hdroplenc := hdroplen
  have hdrop2c := hdrop2
  have htake2c := htake2
  simp only [List.cons_append] at hdrop1c htake1c hdroplenc hdrop2c htake2c ⊢
  simp only [config_line_tokens, hdrop1c, htake1c, hdroplenc, hdrop2c, htake2c]

/-- Every character of a `key=value\n` line with delimiter-free key and value
is not '#', so comment stripping leaves the line unchanged. -/
theorem keyval_no_hash (key v : List Char)
    (hkey : ∀ x ∈ key, isOptDelim x = false) (hv : ∀ x ∈ v, isOptDelim x = false) :
    ∀ c ∈ key ++ '=' :: (v ++ ['\n']), (c == '#') = false := by
  intro c hc
  rcases List.mem_append.1 hc with h | h
  · exact no_hash_of_isOptDelim_false c (hkey c h)
  · rcases List.mem_cons.1 h with rfl | h2
    · decide
    · rcases List.mem_append.1 h2 with h3 | h3
      · exact no_hash_of_isOptDelim_false c (hv c h3)
      · rcases List.mem_singleton.1 h3 with rfl
        decide

theorem process_host_line (cfg : configuration_options_t) (v : List Char)
    (hvnil : v ≠ []) (hv : ∀ x ∈ v, isOptDelim x = false) :
    process_config_line cfg (host_line v) = InitResult.ok { cfg with hostname := v } := by
  unfold process_config_line host_line
  rw [strip_comments_id _ (keyval_no_hash hostname_key v (by decide) hv)]
  rw [config_line_tokens_keyval hostname_key v (by decide) (by decide) hvnil hv]
  simp

theorem process_port_line (cfg : configuration_options_t) (v : List Char)
    (hvnil : v ≠ []) (hv : ∀ x ∈ v, isOptDelim x = false) :
    process_config_line cfg (port_line v) = InitResult.ok { cfg with port := v } := by
  unfold process_config_line port_line
  rw [strip_comments_id _ (keyval_no_hash port_key v (by decide) hv)]
  rw [config_line_tokens_keyval port_key v (by decide) (by decide) hvnil hv]
  simp [port_key, hostname_key]

/-- Claim C4 amended: when an option (hostname, port) is specified both on the
command line and in the configuration file, the record returned by
initialize_server_configuration holds the configuration-file value, whatever
the command-line value was: the command line is parsed first
(configuration.c lines 588-599) and the file parser overwrites the fields
unconditionally (lines 536-541). -/
theorem claim4_amended_file_value_wins (h1 p1 h2 p2 : List Char)
    (rf : List Char → Option (List (List Char)))
    (hh2nil : h2 ≠ []) (hh2 : ∀ x ∈ h2, isOptDelim x = false)
    (hp2nil : p2 ≠ []) (hp2 : ∀ x ∈ p2, isOptDelim x = false)
    (hrf : rf default_configuration_filename = some [host_line h2, port_line p2]) :
    initialize_server_configuration [CmdOpt.hostnameOpt h1, CmdOpt.portOpt p1] rf
      = InitResult.ok
          { configuration_filename := some default_configuration_filename
            hostname := h2
            port := p2
            document_root_directory := none } := by
  have hcmd : parse_command_line_configuration_options default_configuration
      [CmdOpt.hostnameOpt h1, CmdOpt.portOpt p1]
      = InitResult.ok
          { configuration_filename := some default_configuration_filename
            hostname := h1
            port := p1
            document_root_directory := none } := rfl
  have hline1 := process_host_line
    { configuration_filename := some default_configuration_filename
      hostname := h1, port := p1, document_root_directory := none }
    h2 hh2nil hh2
  have hline2 := process_port_line
    { configuration_filename := some default_configuration_filename
      hostname := h2, port := p1, document_root_directory := none }
    p2 hp2nil hp2
  simp only [initialize_server_configuration, hcmd,
    parse_configuration_file_options, hrf,
    parse_configuration_file_options_lines, hline1, hline2]

theorem claim4_witness :
    hostFileW ≠ []
    ∧ (∀ x ∈ hostFileW, isOptDelim x = false)
    ∧ portFileW ≠ []
    ∧ (∀ x ∈ portFileW, isOptDelim x = false)
    ∧ rf4 default_configuration_filename = some [host_line hostFileW, port_line portFileW]
    ∧ initialize_server_configuration
        [CmdOpt.hostnameOpt (("cmd.example").toList), CmdOpt.portOpt (("9090").toList)] rf4
      = InitResult.ok
          { configuration_filename := some default_configuration_filename
            hostname := hostFileW
            port := portFileW
            document_root_directory := none } :=
  ⟨by decide, by decide, by decide, by decide, by decide,
   claim4_amended_file_value_wins (("cmd.example").toList) (("9090").toList)
     hostFileW portFileW rf4 (by decide) (by decide) (by decide) (by decide) (by decide)⟩

end Serverd
